import Mathlib

/-!
Verification of the `capture` CLI (Raspberry-Pi timed image capture for
the Remi motion-detection system).

The repository contains two near-identical program variants:
`src/main.rs` (variant A) and `src/bin/main.rs` (variant B).  Both drive
the externally-owned camera handle (`rascam::SeriousCamera`) through a
fixed bring-up sequence (`init_camera`), then run a timed
capture-and-persist loop (`batch_capture`).

This file shallowly embeds both variants:

* external collaborator calls to the camera handle become events of a
  trace, driven by a success oracle (`ok : CamCall → Bool`);
* the chunk-delivery channel becomes a list of delivery items;
* the image codec (the `image` crate) becomes a record of oracle
  functions (`Codec`);
* the filesystem becomes a per-filename success oracle plus trace
  events (`Ev`);
* `chrono` timestamp formatting of `%Y%m%d_%H%M%S_%3f` becomes explicit
  zero-padded decimal character lists.

Bytes of the `u8` buffers are modelled as `Nat`; their values are only
ever moved and concatenated, never arithmetically combined.
-/

namespace Capture

/-! ## Static program constants (`src/main.rs` / `src/bin/main.rs`, top of file) -/

def WIDTH : Nat := 1024
def HEIGHT : Nat := 768
def CAM_ISO : Nat := 100
def SENSOR_MODE : Nat := 1
def JPEG_QUALITY : Nat := 85
def SHUTTER_SPEED : Nat := 40000

/-- MMAL fourcc "PNG " as a little-endian `u32`, from `rascam`. -/
def MMAL_ENCODING_PNG : Nat := 0x20474E50

/-- MMAL fourcc "JPEG" as a little-endian `u32`, from `rascam`. -/
def MMAL_ENCODING_JPEG : Nat := 0x4745504A

/-! ## Data model -/

/-- `rascam::CameraSettings`, as constructed in both `main` functions. -/
structure CameraSettings where
  encoding : Nat
  width : Nat
  height : Nat
  iso : Nat
  sensorMode : Nat
  quality : Nat
  zeroCopy : Bool
  useEncoder : Bool
deriving DecidableEq

/-- The `settings` value built in `main` (both variants): every field is a
compile-time constant except `quality`, which is the command-line
`--quality` value (default `JPEG_QUALITY`). -/
def mainSettings (quality : Nat) : CameraSettings :=
  { encoding := MMAL_ENCODING_PNG
    width := WIDTH
    height := HEIGHT
    iso := CAM_ISO
    sensorMode := SENSOR_MODE
    quality := quality
    zeroCopy := true
    useEncoder := true }

/-- `image::ImageFormat`, restricted to the two constructors the program uses. -/
inductive ImageFormat where
  | png
  | jpeg
deriving DecidableEq

/-- A decoded single-channel grayscale image (`image::GrayImage`):
`to_luma8` output, with its raw `L8` pixel buffer. -/
structure GrayImage where
  width : Nat
  height : Nat
  raw : List Nat
deriving DecidableEq

/-- A decoded dynamic image (`image::DynamicImage`), abstracted by the
grayscale image its `to_luma8` conversion yields. -/
structure DynImage where
  luma8 : GrayImage
deriving DecidableEq

/-- `DynamicImage::to_luma8`. -/
def DynImage.toLuma8 (d : DynImage) : GrayImage := d.luma8

/-- One buffer delivered on the camera channel (`rascam::BufferGuard`):
a byte span plus the final-frame flag queried by `is_complete()`. -/
structure Chunk where
  bytes : List Nat
  isComplete : Bool
deriving DecidableEq

/-! ## Bring-up sequencer (`init_camera`, identical in both variants) -/

/-- One configuration/calibration call issued to the camera handle during
`init_camera`.  `warmDelay` stands for the fixed 2000 ms `thread::sleep`,
`warmCapture` for a full warm-up acquisition whose bytes are discarded. -/
inductive CamCall where
  | setCameraNum
  | enableControlPort
  | setCameraParams
  | createEncoder
  | setCameraFormat
  | enable
  | createPreview
  | createPool
  | enableEncoder
  | enablePreview
  | connectEncoder
  | connectPreview
  | warmDelay
  | warmCapture
  | setShutterSpeed
  | setAwbMode
  | setAwbGain
deriving DecidableEq

/-- A fallible camera-handle call (`camera.foo(..)?`): the call is issued
(recorded in the trace); on collaborator failure the `?` operator aborts
`init_camera`, so no later call runs. -/
def camStep (ok : CamCall → Bool) (c : CamCall) (rest : List CamCall × Bool) :
    List CamCall × Bool :=
  if ok c then (c :: rest.1, rest.2) else ([c], false)

/-- An infallible bring-up action (`thread::sleep`): recorded, never fails. -/
def camEmit (c : CamCall) (rest : List CamCall × Bool) : List CamCall × Bool :=
  (c :: rest.1, rest.2)

/-- `init_camera` (`src/main.rs:120-160`, `src/bin/main.rs:105-145`):
the straight-line sequence of camera-handle calls, in source order.
Returns the trace of calls issued and whether bring-up succeeded. -/
def initCamera (ok : CamCall → Bool) : List CamCall × Bool :=
  camStep ok .setCameraNum <|
  camStep ok .enableControlPort <|
  camStep ok .setCameraParams <|
  camStep ok .createEncoder <|
  camStep ok .setCameraFormat <|
  camStep ok .enable <|
  camStep ok .createPreview <|
  camStep ok .createPool <|
  camStep ok .enableEncoder <|
  camStep ok .enablePreview <|
  camStep ok .connectEncoder <|
  camStep ok .connectPreview <|
  camEmit .warmDelay <|
  camStep ok .warmCapture <|
  camStep ok .setShutterSpeed <|
  camStep ok .setAwbMode <|
  camStep ok .setAwbGain <|
  camEmit .warmDelay <|
  camStep ok .warmCapture <|
  ([], true)

/-- The §4.1 bring-up order, written from the spec's state chain
`closed → numbered → … → ready`.  The spec's single `manual_awb_set`
step comprises the two collaborator calls `set_awb_mode(OFF)` and
`set_awb_gain(r, b)`, in that order. -/
def specBringupOrder : List CamCall :=
  [.setCameraNum, .enableControlPort, .setCameraParams, .createEncoder,
   .setCameraFormat, .enable, .createPreview, .createPool,
   .enableEncoder, .enablePreview, .connectEncoder, .connectPreview,
   .warmDelay, .warmCapture, .setShutterSpeed, .setAwbMode, .setAwbGain,
   .warmDelay, .warmCapture]

/-- Trace invariant used to peel the bring-up sequence one call at a time:
the emitted trace is a prefix of `L`, and equals `L` when bring-up
succeeded. -/
def camP (rest : List CamCall × Bool) (L : List CamCall) : Prop :=
  (∃ k, rest.1 = L.take k) ∧ (rest.2 = true → rest.1 = L)

/-! ## Frame acquisition

Variant B (`src/bin/main.rs:182-193`) polls `camera.take()`'s channel:
`recv()?` yields `Ok(Some(buf))` (a chunk), `Ok(None)` (normal close) or
`Err(_)` (fatal channel error).  Variant A (`src/main.rs:162-171`,
`capture`) folds the entire async stream from `camera.take_async()`. -/

/-- One outcome of `receiver.recv()?` on the delivery channel. -/
inductive RecvItem where
  | chunk (c : Chunk)
  | closed
  | failed
deriving DecidableEq

/-- The chunk-reading loop of variant B's `batch_capture`
(`src/bin/main.rs:183-193`): append each delivered chunk's bytes to the
accumulation buffer `acc`, stop after the first final-flagged chunk or on
normal close (an exhausted item list is an empty/closed channel); a
channel error (`recv()?`) is fatal and yields `none`. -/
def recvLoop (acc : List Nat) : List RecvItem → Option (List Nat)
  | [] => some acc
  | .failed :: _ => none
  | .closed :: _ => some acc
  | .chunk c :: rest =>
    if c.isComplete then some (acc ++ c.bytes) else recvLoop (acc ++ c.bytes) rest

/-- Variant A's `capture` (`src/main.rs:162-171`): fold the whole delivery
stream, concatenating every chunk's bytes. -/
def captureA (chunks : List Chunk) : List Nat :=
  chunks.foldl (fun acc c => acc ++ c.bytes) []

/-- Spec-side description of one assembled frame: the chunks up to and
including the first final-flagged one, or all of them if none is flagged. -/
def takeThroughComplete : List Chunk → List Chunk
  | [] => []
  | c :: rest => if c.isComplete then [c] else c :: takeThroughComplete rest

/-! ## Timestamps and filenames

Both variants name frame files with
`datetime.format("%Y%m%d_%H%M%S_%3f")` plus an extension, and the session
directory with `datetime.format("%Y%m%d_%H%M%S")`: fixed-width,
zero-padded decimal fields, most significant first. -/

/-- A local capture time at millisecond precision, as the `chrono`
formatter consumes it. -/
structure Timestamp where
  year : Nat
  month : Nat
  day : Nat
  hour : Nat
  minute : Nat
  second : Nat
  millis : Nat
deriving DecidableEq

/-- Field ranges a real `chrono::DateTime<Local>` delivers to the formatter. -/
def Timestamp.valid (t : Timestamp) : Prop :=
  t.year < 10000 ∧ 1 ≤ t.month ∧ t.month ≤ 12 ∧ 1 ≤ t.day ∧ t.day ≤ 31 ∧
    t.hour < 24 ∧ t.minute < 60 ∧ t.second < 60 ∧ t.millis < 1000

/-- Chronological order on capture times, at millisecond granularity:
field-lexicographic from year down to milliseconds. -/
def Timestamp.before (a b : Timestamp) : Prop :=
  a.year < b.year ∨ (a.year = b.year ∧ (a.month < b.month ∨ (a.month = b.month ∧
    (a.day < b.day ∨ (a.day = b.day ∧ (a.hour < b.hour ∨ (a.hour = b.hour ∧
    (a.minute < b.minute ∨ (a.minute = b.minute ∧ (a.second < b.second ∨
    (a.second = b.second ∧ a.millis < b.millis)))))))))))

/-- Zero-padded fixed-width decimal digits of `n`, most significant first:
`padDigits w n` is the `w`-digit rendering used by `%Y`, `%m`, …, `%3f`. -/
def padDigits : Nat → Nat → List Nat
  | 0, _ => []
  | w + 1, n => n / 10 ^ w :: padDigits w (n % 10 ^ w)

/-- A fixed-width decimal field as characters. -/
def decField (w n : Nat) : List Char :=
  (padDigits w n).map Nat.digitChar

/-- The characters of `%Y%m%d_%H%M%S_%3f`. -/
def tsChars (t : Timestamp) : List Char :=
  decField 4 t.year ++ decField 2 t.month ++ decField 2 t.day ++ ['_'] ++
    decField 2 t.hour ++ decField 2 t.minute ++ decField 2 t.second ++ ['_'] ++
    decField 3 t.millis

/-- The `%Y%m%d_%H%M%S_%3f` timestamp string prefixed to every frame filename. -/
def tsString (t : Timestamp) : String :=
  String.mk (tsChars t)

/-- The `%Y%m%d_%H%M%S` session-directory name chosen once in `main`. -/
def sessionDirName (t : Timestamp) : String :=
  String.mk (decField 4 t.year ++ decField 2 t.month ++ decField 2 t.day ++ ['_'] ++
    decField 2 t.hour ++ decField 2 t.minute ++ decField 2 t.second)

/-! ## Frame persistence -/

/-- The `image` codec collaborator: `ImageReader::with_format(..).decode()`,
`JpegEncoder::new_with_quality(file, q).encode(..)` (variant A, returning
the bytes it streams into the created file), `save_with_format` (variant
A's fallback, which writes its own file and reports success), and
`GrayImage::write_to(.., Jpeg)` (variant B's in-memory encode). -/
structure Codec where
  decode : ImageFormat → List Nat → Option DynImage
  jpegEncodeQ : Nat → GrayImage → Option (List Nat)
  saveJpeg : String → GrayImage → Bool
  writeToJpeg : GrayImage → Option (List Nat)

/-- One observable side effect of the capture-and-persist loop. -/
inductive Ev where
  | camCall (c : CamCall)
  | tick
  | takeFrame
  | createDir (name : String)
  | createFile (name : String)
  | jpegEncodeCall (quality : Nat) (g : GrayImage)
  | writeToCall (fmt : ImageFormat) (g : GrayImage)
  | saveFallback (name : String) (fmt : ImageFormat) (g : GrayImage)
  | writeBytes (name : String) (bytes : List Nat)
deriving DecidableEq

/-- The declared decode format, computed once per run from the settings:
`if settings.encoding == MMAL_ENCODING_PNG { Png } else { Jpeg }`
(`src/main.rs:186-190`, `src/bin/main.rs:172-176`). -/
def declaredFormat (settings : CameraSettings) : ImageFormat :=
  if settings.encoding = MMAL_ENCODING_PNG then ImageFormat.png else ImageFormat.jpeg

/-- The raw-byte fallback extension chosen in the decode-failure arm
(`src/main.rs:219-223`, `src/bin/main.rs:211-215`). -/
def fallbackExt (settings : CameraSettings) : String :=
  if settings.encoding = MMAL_ENCODING_PNG then ".png" else ".jpg"

/-- Variant A's per-frame persistence (`src/main.rs:199-228`): decode under
the declared format; on success convert with `to_luma8`, create
`<ts>.jpg` and stream a `JpegEncoder::new_with_quality(file, JPEG_QUALITY)`
encode into it, falling back once to `save_with_format(.., Jpeg)`; on
decode failure write the original bytes verbatim under the fallback
extension.  `fileOk name` is the filesystem oracle for creating and
writing `name`; returns the event trace and whether the frame survived
(a `false` aborts the whole run through `?`). -/
def persistFrameA (codec : Codec) (fileOk : String → Bool)
    (settings : CameraSettings) (ts : Timestamp) (im : List Nat) : List Ev × Bool :=
  match codec.decode (declaredFormat settings) im with
  | some res =>
    let gray := res.toLuma8
    let filename := tsString ts ++ ".jpg"
    if fileOk filename then
      match codec.jpegEncodeQ JPEG_QUALITY gray with
      | some bytes =>
        ([.createFile filename, .jpegEncodeCall JPEG_QUALITY gray,
          .writeBytes filename bytes], true)
      | none =>
        ([.createFile filename, .jpegEncodeCall JPEG_QUALITY gray,
          .saveFallback filename ImageFormat.jpeg gray], codec.saveJpeg filename gray)
    else ([.createFile filename], false)
  | none =>
    let filename := tsString ts ++ fallbackExt settings
    if fileOk filename then
      ([.createFile filename, .writeBytes filename im], true)
    else ([.createFile filename], false)

/-- Variant B's per-frame persistence (`src/bin/main.rs:197-221`): decode
under the declared format; on success convert with `to_luma8` and encode
into the reused buffer with `write_to(.., Jpeg)` — a failure there aborts
through `?` with no fallback — then create `<ts>.jpg` and write the
encoded bytes; on decode failure write the original bytes verbatim under
the fallback extension. -/
def persistFrameB (codec : Codec) (fileOk : String → Bool)
    (settings : CameraSettings) (ts : Timestamp) (im : List Nat) : List Ev × Bool :=
  match codec.decode (declaredFormat settings) im with
  | some res =>
    let gray := res.toLuma8
    let filename := tsString ts ++ ".jpg"
    match codec.writeToJpeg gray with
    | some bytes =>
      if fileOk filename then
        ([.writeToCall ImageFormat.jpeg gray, .createFile filename,
          .writeBytes filename bytes], true)
      else ([.writeToCall ImageFormat.jpeg gray, .createFile filename], false)
    | none => ([.writeToCall ImageFormat.jpeg gray], false)
  | none =>
    let filename := tsString ts ++ fallbackExt settings
    if fileOk filename then
      ([.createFile filename, .writeBytes filename im], true)
    else ([.createFile filename], false)

/-! ## The timed capture loops -/

/-- Variant A's `for i in 1..=n` body (`src/main.rs:192-229`): await the
tick, run `capture` over the whole delivery stream of that tick, persist.
`channels i` is the chunk stream delivered for tick `i`, `tsOf i` the
completion timestamp taken right after acquisition.  Returns the event
trace and whether the loop ran to completion. -/
def loopA (codec : Codec) (fileOk : String → Bool) (settings : CameraSettings)
    (channels : Nat → List Chunk) (tsOf : Nat → Timestamp) :
    Nat → Nat → List Ev × Bool
  | _, 0 => ([], true)
  | i, k + 1 =>
    let im := captureA (channels i)
    let p := persistFrameA codec fileOk settings (tsOf i) im
    if p.2 then
      let rest := loopA codec fileOk settings channels tsOf (i + 1) k
      (Ev.tick :: Ev.takeFrame :: (p.1 ++ rest.1), rest.2)
    else (Ev.tick :: Ev.takeFrame :: p.1, false)

/-- Variant A's `batch_capture` (`src/main.rs:173-231`): a single priming
acquisition whose bytes are bound to `_` and discarded
(`src/main.rs:191`), then the timed loop.  `channels 0` is the priming
delivery. -/
def batchCaptureA (codec : Codec) (fileOk : String → Bool) (settings : CameraSettings)
    (n : Nat) (channels : Nat → List Chunk) (tsOf : Nat → Timestamp) : List Ev × Bool :=
  let rest := loopA codec fileOk settings channels tsOf 1 n
  (Ev.takeFrame :: rest.1, rest.2)

/-- Variant B's `for i in 1..=n` body (`src/bin/main.rs:179-222`): await
the tick, clear the reused buffer, run the `recv` chunk loop (a channel
error aborts through `?`), persist. -/
def loopB (codec : Codec) (fileOk : String → Bool) (settings : CameraSettings)
    (channels : Nat → List RecvItem) (tsOf : Nat → Timestamp) :
    Nat → Nat → List Ev × Bool
  | _, 0 => ([], true)
  | i, k + 1 =>
    match recvLoop [] (channels i) with
    | none => ([Ev.tick, Ev.takeFrame], false)
    | some im =>
      let p := persistFrameB codec fileOk settings (tsOf i) im
      if p.2 then
        let rest := loopB codec fileOk settings channels tsOf (i + 1) k
        (Ev.tick :: Ev.takeFrame :: (p.1 ++ rest.1), rest.2)
      else (Ev.tick :: Ev.takeFrame :: p.1, false)

/-- Variant B's `batch_capture` (`src/bin/main.rs:158-224`): no priming
acquisition — the loop starts directly with the first tick. -/
def batchCaptureB (codec : Codec) (fileOk : String → Bool) (settings : CameraSettings)
    (n : Nat) (channels : Nat → List RecvItem) (tsOf : Nat → Timestamp) : List Ev × Bool :=
  loopB codec fileOk settings channels tsOf 1 n

/-! ## The program entry points

Camera discovery, argument parsing and the directory picker are glue; the
embedding starts where `init_camera` is called with the first discovered
camera and the hard-wired settings (`src/main.rs:95-117`,
`src/bin/main.rs:94-103`).  Exit status `0` is success; `1` is the
non-zero status produced by `return Err(..)` / `?` / `process::exit(1)`. -/

/-- Everything a run depends on: the camera-call oracle, the codec, the
filesystem oracle, the per-tick deliveries and timestamps, the
session-start time, and the two command-line values the core consumes. -/
structure RunEnv where
  ok : CamCall → Bool
  codec : Codec
  fileOk : String → Bool
  chunkChannels : Nat → List Chunk
  recvChannels : Nat → List RecvItem
  tsOf : Nat → Timestamp
  sessionTs : Timestamp
  nframe : Nat
  quality : Nat

/-- Variant A's `main` after discovery (`src/main.rs:95-117`): bring-up,
and only on its success create the session directory and run
`batch_capture`; a bring-up failure returns `Err` (non-zero exit) before
the directory exists. -/
def mainRunA (env : RunEnv) : List Ev × Nat :=
  let settings := mainSettings env.quality
  let b := initCamera env.ok
  let evs := b.1.map Ev.camCall
  if b.2 then
    let evs := evs ++ [Ev.createDir (sessionDirName env.sessionTs)]
    let r := batchCaptureA env.codec env.fileOk settings env.nframe env.chunkChannels env.tsOf
    (evs ++ r.1, if r.2 then 0 else 1)
  else (evs, 1)

/-- Variant B's `main` after discovery (`src/bin/main.rs:94-103`): same
shape, with variant B's `batch_capture`. -/
def mainRunB (env : RunEnv) : List Ev × Nat :=
  let settings := mainSettings env.quality
  let b := initCamera env.ok
  let evs := b.1.map Ev.camCall
  if b.2 then
    let evs := evs ++ [Ev.createDir (sessionDirName env.sessionTs)]
    let r := batchCaptureB env.codec env.fileOk settings env.nframe env.recvChannels env.tsOf
    (evs ++ r.1, if r.2 then 0 else 1)
  else (evs, 1)

/-! ## Event counters -/

/-- An event that leaves a file on disk: a verbatim/encoded byte write or a
`save_with_format` fallback save. -/
def isFileWrite : Ev → Bool
  | .writeBytes _ _ => true
  | .saveFallback _ _ _ => true
  | _ => false

def filesWritten (evs : List Ev) : Nat := (evs.filter isFileWrite).length

def isTick : Ev → Bool
  | .tick => true
  | _ => false

def tickCount (evs : List Ev) : Nat := (evs.filter isTick).length

def isTakeFrame : Ev → Bool
  | .takeFrame => true
  | _ => false

def takeCount (evs : List Ev) : Nat := (evs.filter isTakeFrame).length

def isCreateDir : Ev → Bool
  | .createDir _ => true
  | _ => false

def dirCount (evs : List Ev) : Nat := (evs.filter isCreateDir).length

def isFallbackCall : Ev → Bool
  | .saveFallback _ _ _ => true
  | _ => false

def fallbackCount (evs : List Ev) : Nat := (evs.filter isFallbackCall).length

/-! ## Concrete sample inputs, used by the witnesses -/

def sampleGray : GrayImage := ⟨2, 2, [10, 20, 30, 40]⟩

def sampleDyn : DynImage := ⟨sampleGray⟩

def sampleTs : Timestamp := ⟨2026, 10, 12, 9, 30, 5, 123⟩

def sampleTsLater : Timestamp := ⟨2026, 10, 12, 9, 30, 5, 124⟩

def allFilesOk : String → Bool := fun _ => true

/-- A codec whose decode and both encodes always succeed. -/
def codecOkAll : Codec :=
  ⟨fun _ _ => some sampleDyn, fun _ g => some g.raw, fun _ _ => true, fun g => some g.raw⟩

/-- A codec whose declared-format decode always fails. -/
def codecNoDecode : Codec :=
  ⟨fun _ _ => none, fun _ g => some g.raw, fun _ _ => true, fun g => some g.raw⟩

/-- A codec that decodes but whose primary JPEG re-encode always fails;
the generic `save_with_format` fallback succeeds. -/
def codecNoEncode : Codec :=
  ⟨fun _ _ => some sampleDyn, fun _ _ => none, fun _ _ => true, fun _ => none⟩

def sampleChannels : Nat → List Chunk := fun _ => [⟨[1, 2], false⟩, ⟨[3], true⟩]

def sampleRecvChannels : Nat → List RecvItem := fun i => (sampleChannels i).map RecvItem.chunk

def sampleTsOf : Nat → Timestamp := fun i => ⟨2026, 10, 12, 9, 30, 5, i⟩

def allCallsOk : CamCall → Bool := fun _ => true

/-- A camera oracle on which exactly the `set_camera_format` bring-up call
reports failure. -/
def failFormatCall : CamCall → Bool := fun c =>
  match c with
  | .setCameraFormat => false
  | _ => true

/-- A run whose bring-up fails at the format-setting step. -/
def sampleEnvFailFormat : RunEnv :=
  ⟨failFormatCall, codecOkAll, allFilesOk, sampleChannels, sampleRecvChannels,
   sampleTsOf, sampleTs, 3, 85⟩

/-! ## Bring-up ordering (claim C1) -/

theorem camP_nil : camP ([], true) [] :=
  ⟨⟨0, rfl⟩, fun _ => rfl⟩

theorem camP_step (ok : CamCall → Bool) (c : CamCall) {rest : List CamCall × Bool}
    {L : List CamCall} (h : camP rest L) : camP (camStep ok c rest) (c :: L) := by
  unfold camStep
  by_cases hc : ok c = true
  · obtain ⟨⟨k, hk⟩, h2⟩ := h
    refine ⟨⟨k + 1, by simp [hc, hk]⟩, fun hb => ?_⟩
    rw [if_pos hc] at hb ⊢
    simp only at hb
    simp [h2 hb]
  · simp only [hc]
    exact ⟨⟨1, by simp⟩, by simp⟩

theorem camP_emit (c : CamCall) {rest : List CamCall × Bool}
    {L : List CamCall} (h : camP rest L) : camP (camEmit c rest) (c :: L) := by
  obtain ⟨⟨k, hk⟩, h2⟩ := h
  exact ⟨⟨k + 1, by simp [camEmit, hk]⟩, fun hb => by simp [camEmit, h2 hb]⟩

/-- Claim C1: for every run with any valid `CameraSettings`, bring-up issues
its configuration calls in exactly the §4.1 order: the trace of calls is
always a prefix of the §4.1 sequence, a successful bring-up issues exactly
that sequence, and encoder creation occurs strictly before the image format
is applied.  (The call order in `init_camera` does not consult the settings
at all, so this holds for every settings value.) -/
theorem bringup_call_order (ok : CamCall → Bool) :
    (∃ k, (initCamera ok).1 = specBringupOrder.take k) ∧
    ((initCamera ok).2 = true → (initCamera ok).1 = specBringupOrder) ∧
    specBringupOrder.indexOf .createEncoder < specBringupOrder.indexOf .setCameraFormat := by
  have h : camP (initCamera ok) specBringupOrder := by
    unfold initCamera specBringupOrder
    exact camP_step ok _ (camP_step ok _ (camP_step ok _ (camP_step ok _
      (camP_step ok _ (camP_step ok _ (camP_step ok _ (camP_step ok _
      (camP_step ok _ (camP_step ok _ (camP_step ok _ (camP_step ok _
      (camP_emit _ (camP_step ok _ (camP_step ok _ (camP_step ok _
      (camP_step ok _ (camP_emit _ (camP_step ok _ camP_nil))))))))))))))))))
  exact ⟨h.1, h.2, by decide⟩

/-- Witness for C1: a fully-successful bring-up run issues exactly the §4.1
sequence. -/
theorem bringup_call_order_witness :
    (initCamera allCallsOk).1 = specBringupOrder :=
  (bringup_call_order allCallsOk).2.1 (by decide)

/-! ## Frame assembly (claim C2) -/

theorem recvLoop_chunks (chunks : List Chunk) (acc : List Nat) (tail : List RecvItem)
    (htail : tail = [] ∨ tail = [RecvItem.closed]) :
    recvLoop acc (chunks.map RecvItem.chunk ++ tail) =
      some (acc ++ ((takeThroughComplete chunks).map Chunk.bytes).flatten) := by
  induction chunks generalizing acc with
  | nil =>
    rcases htail with h | h <;> simp [h, recvLoop, takeThroughComplete]
  | cons c rest ih =>
    by_cases hc : c.isComplete = true
    · simp [recvLoop, takeThroughComplete, hc]
    · rw [List.map_cons, List.cons_append]
      show recvLoop acc (RecvItem.chunk c :: (rest.map RecvItem.chunk ++ tail)) = _
      rw [recvLoop, if_neg hc, ih (acc ++ c.bytes)]
      simp [takeThroughComplete, hc]

theorem captureA_foldl (chunks : List Chunk) (acc : List Nat) :
    chunks.foldl (fun a c => a ++ c.bytes) acc = acc ++ (chunks.map Chunk.bytes).flatten := by
  induction chunks generalizing acc with
  | nil => simp
  | cons c rest ih => simp [List.foldl, ih]

/-- Claim C2: the assembled frame is the delivery-order concatenation of the
chunks up to and including the first final-flagged one; if the channel
closes (explicitly or by exhaustion) before any final-flagged chunk, all
delivered bytes are assembled and still handed on as a frame (`some`, not
the fatal `none`).  Variant A's `capture` concatenates every delivered
chunk. -/
theorem frame_assembly_concat (chunks : List Chunk) :
    recvLoop [] (chunks.map RecvItem.chunk) =
      some ((takeThroughComplete chunks).map Chunk.bytes).flatten ∧
    recvLoop [] (chunks.map RecvItem.chunk ++ [RecvItem.closed]) =
      some ((takeThroughComplete chunks).map Chunk.bytes).flatten ∧
    ((∀ c ∈ chunks, c.isComplete = false) → takeThroughComplete chunks = chunks) ∧
    captureA chunks = (chunks.map Chunk.bytes).flatten := by
  refine ⟨?_, ?_, ?_, ?_⟩
  · have := recvLoop_chunks chunks [] [] (Or.inl rfl)
    simpa using this
  · have := recvLoop_chunks chunks [] [RecvItem.closed] (Or.inr rfl)
    simpa using this
  · intro hnone
    induction chunks with
    | nil => rfl
    | cons c rest ih =>
      have hc : c.isComplete = false := hnone c (by simp)
      simp only [takeThroughComplete, hc]
      simp only [Bool.false_eq_true, if_false, List.cons.injEq, true_and]
      exact ih fun d hd => hnone d (by simp [hd])
  · simpa using captureA_foldl chunks []

/-- Witness for C2: a concrete two-chunk delivery followed by a stale chunk
after the final flag; the assembled frame stops at the final-flagged chunk,
and a flagless delivery is assembled whole. -/
theorem frame_assembly_concat_witness :
    recvLoop [] ([⟨[1, 2], false⟩, ⟨[3], true⟩, ⟨[9], false⟩].map RecvItem.chunk) =
      some [1, 2, 3] ∧
    takeThroughComplete [⟨[1, 2], false⟩, ⟨[7], false⟩] = [⟨[1, 2], false⟩, ⟨[7], false⟩] := by
  constructor
  · have h := (frame_assembly_concat [⟨[1, 2], false⟩, ⟨[3], true⟩, ⟨[9], false⟩]).1
    rw [h]
    decide
  · exact (frame_assembly_concat [⟨[1, 2], false⟩, ⟨[7], false⟩]).2.2.1 (by decide)

/-! ## Decode-failure raw fallback (claim C3) -/

/-- Claim C3: a frame whose bytes fail declared-format decoding is written
byte-for-byte identical to the original buffer under the extension of the
declared encoding family, the frame is not fatal (`true`), and the loop
proceeds to the next tick with the rest of the run unchanged. -/
theorem decode_failure_fallback_write (codec : Codec) (fileOk : String → Bool)
    (settings : CameraSettings) (ts : Timestamp) (im : List Nat)
    (hd : codec.decode (declaredFormat settings) im = none)
    (hf : fileOk (tsString ts ++ fallbackExt settings) = true) :
    persistFrameB codec fileOk settings ts im =
      ([.createFile (tsString ts ++ fallbackExt settings),
        .writeBytes (tsString ts ++ fallbackExt settings) im], true) ∧
    (declaredFormat settings = ImageFormat.png → fallbackExt settings = ".png") ∧
    (declaredFormat settings = ImageFormat.jpeg → fallbackExt settings = ".jpg") ∧
    (∀ channels tsOf i k, recvLoop [] (channels i) = some im → tsOf i = ts →
      loopB codec fileOk settings channels tsOf i (k + 1) =
        (Ev.tick :: Ev.takeFrame ::
          ([Ev.createFile (tsString ts ++ fallbackExt settings),
            Ev.writeBytes (tsString ts ++ fallbackExt settings) im] ++
            (loopB codec fileOk settings channels tsOf (i + 1) k).1),
         (loopB codec fileOk settings channels tsOf (i + 1) k).2)) := by
  have h1 : persistFrameB codec fileOk settings ts im =
      ([.createFile (tsString ts ++ fallbackExt settings),
        .writeBytes (tsString ts ++ fallbackExt settings) im], true) := by
    unfold persistFrameB
    rw [hd]
    simp [hf]
  refine ⟨h1, ?_, ?_, ?_⟩
  · intro hp
    unfold declaredFormat at hp
    unfold fallbackExt
    by_cases he : settings.encoding = MMAL_ENCODING_PNG <;> simp [he] at hp ⊢
  · intro hp
    unfold declaredFormat at hp
    unfold fallbackExt
    by_cases he : settings.encoding = MMAL_ENCODING_PNG <;> simp [he] at hp ⊢
  · intro channels tsOf i k hr ht
    rw [loopB, hr]
    simp only [ht, h1, if_true]

/-- Witness for C3: a concrete undecodable two-byte frame is persisted
verbatim as `<ts>.png` and the frame succeeds. -/
theorem decode_failure_fallback_write_witness :
    persistFrameB codecNoDecode allFilesOk (mainSettings 85) sampleTs [7, 8] =
      ([.createFile (tsString sampleTs ++ ".png"),
        .writeBytes (tsString sampleTs ++ ".png") [7, 8]], true) := by
  have h := (decode_failure_fallback_write codecNoDecode allFilesOk (mainSettings 85)
    sampleTs [7, 8] rfl rfl).1
  simpa [fallbackExt, mainSettings] using h

/-! ## Grayscale JPEG re-encode quality (claim C4, corrected) -/

/-- Counterexample to claim C4 as stated: with the session quality set to
50 (`--quality 50`, so `CameraSettings.quality = 50`), a successfully
decoded frame is re-encoded by `JpegEncoder::new_with_quality(file,
JPEG_QUALITY)` at the compile-time constant 85, not at the configured 50:
the trace holds an encode call at quality 85 and none at quality 50. -/
theorem reencode_quality_counterexample :
    (mainSettings 50).quality = 50 ∧
    (persistFrameA codecOkAll allFilesOk (mainSettings 50) sampleTs [7]).1 =
      [.createFile (tsString sampleTs ++ ".jpg"),
       .jpegEncodeCall 85 sampleGray,
       .writeBytes (tsString sampleTs ++ ".jpg") sampleGray.raw] ∧
    Ev.jpegEncodeCall 85 sampleGray ∈
      (persistFrameA codecOkAll allFilesOk (mainSettings 50) sampleTs [7]).1 ∧
    Ev.jpegEncodeCall 50 sampleGray ∉
      (persistFrameA codecOkAll allFilesOk (mainSettings 50) sampleTs [7]).1 := by
  refine ⟨rfl, ?_, ?_, ?_⟩ <;> decide

/-- Claim C4 as amended: every successfully decoded frame is converted to
single-channel grayscale (`to_luma8`) and re-encoded as JPEG at the fixed
compile-time quality `JPEG_QUALITY = 85` — not at the session-configured
quality — and written to `<session_dir>/<timestamp>.jpg` (shown for
variant A; variant B's `write_to(.., Jpeg)` passes no quality at all). -/
theorem reencode_fixed_quality (codec : Codec) (fileOk : String → Bool)
    (settings : CameraSettings) (ts : Timestamp) (im : List Nat) (res : DynImage)
    (bytes : List Nat)
    (hd : codec.decode (declaredFormat settings) im = some res)
    (hf : fileOk (tsString ts ++ ".jpg") = true)
    (he : codec.jpegEncodeQ JPEG_QUALITY res.toLuma8 = some bytes) :
    persistFrameA codec fileOk settings ts im =
      ([.createFile (tsString ts ++ ".jpg"),
        .jpegEncodeCall JPEG_QUALITY res.toLuma8,
        .writeBytes (tsString ts ++ ".jpg") bytes], true) ∧
    JPEG_QUALITY = 85 := by
  constructor
  · unfold persistFrameA
    rw [hd]
    simp [hf, he]
  · rfl

/-- Witness for C4 (amended): a concrete decoded frame is grayscale
re-encoded at quality 85 into `<ts>.jpg`. -/
theorem reencode_fixed_quality_witness :
    persistFrameA codecOkAll allFilesOk (mainSettings 85) sampleTs [7] =
      ([.createFile (tsString sampleTs ++ ".jpg"),
        .jpegEncodeCall JPEG_QUALITY sampleGray,
        .writeBytes (tsString sampleTs ++ ".jpg") sampleGray.raw], true) :=
  (reencode_fixed_quality codecOkAll allFilesOk (mainSettings 85) sampleTs [7]
    sampleDyn sampleGray.raw rfl rfl rfl).1

/-! ## Re-encode fallback (claim C5, corrected) -/

/-- Counterexample to claim C5 as stated: in variant B
(`src/bin/main.rs:204`), a successfully decoded frame whose primary
re-encode (`write_to(.., Jpeg)`) fails aborts immediately through `?` with
no `save_with_format` fallback call at all — the fallback exists only in
variant A. -/
theorem fallback_absent_bin_counterexample :
    persistFrameB codecNoEncode allFilesOk (mainSettings 85) sampleTs [7] =
      ([.writeToCall ImageFormat.jpeg sampleGray], false) ∧
    fallbackCount (persistFrameB codecNoEncode allFilesOk (mainSettings 85) sampleTs [7]).1
      = 0 := by
  constructor <;> decide

/-- Claim C5 as amended: in variant A (`src/main.rs:206-215`) only, a
successfully decoded frame whose primary quality-85 encode fails triggers
exactly one generic `save_with_format(.., Jpeg)` fallback under the same
format, and the frame survives exactly when that single fallback succeeds;
in variant B a primary re-encode failure aborts with no fallback. -/
theorem fallback_once_main_variant (codec : Codec) (fileOk : String → Bool)
    (settings : CameraSettings) (ts : Timestamp) (im : List Nat) (res : DynImage)
    (hd : codec.decode (declaredFormat settings) im = some res)
    (hf : fileOk (tsString ts ++ ".jpg") = true)
    (he : codec.jpegEncodeQ JPEG_QUALITY res.toLuma8 = none) :
    persistFrameA codec fileOk settings ts im =
      ([.createFile (tsString ts ++ ".jpg"),
        .jpegEncodeCall JPEG_QUALITY res.toLuma8,
        .saveFallback (tsString ts ++ ".jpg") ImageFormat.jpeg res.toLuma8],
       codec.saveJpeg (tsString ts ++ ".jpg") res.toLuma8) ∧
    fallbackCount (persistFrameA codec fileOk settings ts im).1 = 1 := by
  have h1 : persistFrameA codec fileOk settings ts im =
      ([.createFile (tsString ts ++ ".jpg"),
        .jpegEncodeCall JPEG_QUALITY res.toLuma8,
        .saveFallback (tsString ts ++ ".jpg") ImageFormat.jpeg res.toLuma8],
       codec.saveJpeg (tsString ts ++ ".jpg") res.toLuma8) := by
    unfold persistFrameA
    rw [hd]
    simp [hf, he]
  refine ⟨h1, ?_⟩
  rw [h1]
  simp [fallbackCount, isFallbackCall, List.filter]

/-- Witness for C5 (amended): with a concrete failing primary encoder and a
succeeding fallback, variant A issues exactly one fallback save and the
frame survives. -/
theorem fallback_once_main_variant_witness :
    persistFrameA codecNoEncode allFilesOk (mainSettings 85) sampleTs [7] =
      ([.createFile (tsString sampleTs ++ ".jpg"),
        .jpegEncodeCall JPEG_QUALITY sampleGray,
        .saveFallback (tsString sampleTs ++ ".jpg") ImageFormat.jpeg sampleGray],
       true) :=
  (fallback_once_main_variant codecNoEncode allFilesOk (mainSettings 85) sampleTs [7]
    sampleDyn rfl rfl rfl).1

/-! ## Counting helpers -/

theorem filesWritten_append (a b : List Ev) :
    filesWritten (a ++ b) = filesWritten a + filesWritten b := by
  simp [filesWritten, List.filter_append]

theorem tickCount_append (a b : List Ev) :
    tickCount (a ++ b) = tickCount a + tickCount b := by
  simp [tickCount, List.filter_append]

theorem takeCount_append (a b : List Ev) :
    takeCount (a ++ b) = takeCount a + takeCount b := by
  simp [takeCount, List.filter_append]

theorem filesWritten_tick_take (l : List Ev) :
    filesWritten (Ev.tick :: Ev.takeFrame :: l) = filesWritten l := by
  simp [filesWritten, isFileWrite]

theorem tickCount_tick_take (l : List Ev) :
    tickCount (Ev.tick :: Ev.takeFrame :: l) = tickCount l + 1 := by
  simp [tickCount, isTick, List.filter]

theorem takeCount_tick_take (l : List Ev) :
    takeCount (Ev.tick :: Ev.takeFrame :: l) = takeCount l + 1 := by
  simp [takeCount, isTakeFrame, List.filter]

/-- A successfully persisted frame (either variant) contributes exactly one
file write and no tick or acquisition events. -/
theorem persistA_counts (codec : Codec) (fileOk : String → Bool)
    (settings : CameraSettings) (ts : Timestamp) (im : List Nat)
    (h : (persistFrameA codec fileOk settings ts im).2 = true) :
    filesWritten (persistFrameA codec fileOk settings ts im).1 = 1 ∧
    tickCount (persistFrameA codec fileOk settings ts im).1 = 0 ∧
    takeCount (persistFrameA codec fileOk settings ts im).1 = 0 := by
  rcases hd : codec.decode (declaredFormat settings) im with _ | res
  · by_cases hf : fileOk (tsString ts ++ fallbackExt settings) = true
    · simp [persistFrameA, hd, hf, filesWritten, tickCount, takeCount,
        isFileWrite, isTick, isTakeFrame, List.filter]
    · rw [persistFrameA, hd] at h
      simp [hf] at h
  · by_cases hf : fileOk (tsString ts ++ ".jpg") = true
    · rcases he : codec.jpegEncodeQ JPEG_QUALITY res.toLuma8 with _ | bytes
      · simp [persistFrameA, hd, hf, he, filesWritten, tickCount, takeCount,
          isFileWrite, isTick, isTakeFrame, List.filter]
      · simp [persistFrameA, hd, hf, he, filesWritten, tickCount, takeCount,
          isFileWrite, isTick, isTakeFrame, List.filter]
    · rw [persistFrameA, hd] at h
      simp [hf] at h

theorem persistB_counts (codec : Codec) (fileOk : String → Bool)
    (settings : CameraSettings) (ts : Timestamp) (im : List Nat)
    (h : (persistFrameB codec fileOk settings ts im).2 = true) :
    filesWritten (persistFrameB codec fileOk settings ts im).1 = 1 ∧
    tickCount (persistFrameB codec fileOk settings ts im).1 = 0 ∧
    takeCount (persistFrameB codec fileOk settings ts im).1 = 0 := by
  rcases hd : codec.decode (declaredFormat settings) im with _ | res
  · by_cases hf : fileOk (tsString ts ++ fallbackExt settings) = true
    · simp [persistFrameB, hd, hf, filesWritten, tickCount, takeCount,
        isFileWrite, isTick, isTakeFrame, List.filter]
    · rw [persistFrameB, hd] at h
      simp [hf] at h
  · rcases he : codec.writeToJpeg res.toLuma8 with _ | bytes
    · rw [persistFrameB, hd] at h
      simp [he] at h
    · by_cases hf : fileOk (tsString ts ++ ".jpg") = true
      · simp [persistFrameB, hd, hf, he, filesWritten, tickCount, takeCount,
          isFileWrite, isTick, isTakeFrame, List.filter]
      · rw [persistFrameB, hd] at h
        simp [he, hf] at h

/-- A completed variant-A loop of `k` remaining iterations writes `k` files
over `k` ticks with `k` acquisitions. -/
theorem loopA_counts (codec : Codec) (fileOk : String → Bool) (settings : CameraSettings)
    (channels : Nat → List Chunk) (tsOf : Nat → Timestamp) :
    ∀ k i, (loopA codec fileOk settings channels tsOf i k).2 = true →
      filesWritten (loopA codec fileOk settings channels tsOf i k).1 = k ∧
      tickCount (loopA codec fileOk settings channels tsOf i k).1 = k ∧
      takeCount (loopA codec fileOk settings channels tsOf i k).1 = k := by
  intro k
  induction k with
  | zero =>
    intro i _
    simp [loopA, filesWritten, tickCount, takeCount]
  | succ k ih =>
    intro i h
    have hstep : loopA codec fileOk settings channels tsOf i (k + 1) =
        (if (persistFrameA codec fileOk settings (tsOf i) (captureA (channels i))).2 then
          (Ev.tick :: Ev.takeFrame ::
            ((persistFrameA codec fileOk settings (tsOf i) (captureA (channels i))).1 ++
              (loopA codec fileOk settings channels tsOf (i + 1) k).1),
            (loopA codec fileOk settings channels tsOf (i + 1) k).2)
        else
          (Ev.tick :: Ev.takeFrame ::
            (persistFrameA codec fileOk settings (tsOf i) (captureA (channels i))).1,
            false)) := rfl
    rw [hstep] at h ⊢
    by_cases hp : (persistFrameA codec fileOk settings (tsOf i) (captureA (channels i))).2 = true
    · rw [if_pos hp] at h ⊢
      simp only at h
      obtain ⟨f1, t1, a1⟩ := persistA_counts codec fileOk settings (tsOf i)
        (captureA (channels i)) hp
      obtain ⟨f2, t2, a2⟩ := ih (i + 1) h
      refine ⟨?_, ?_, ?_⟩
      · rw [filesWritten_tick_take, filesWritten_append, f1, f2]
        omega
      · rw [tickCount_tick_take, tickCount_append, t1, t2]
        omega
      · rw [takeCount_tick_take, takeCount_append, a1, a2]
        omega
    · rw [if_neg hp] at h
      simp only at h
      exact absurd h (by simp)

/-- A completed variant-B loop of `k` remaining iterations writes `k` files
over `k` ticks with `k` acquisitions. -/
theorem loopB_counts (codec : Codec) (fileOk : String → Bool) (settings : CameraSettings)
    (channels : Nat → List RecvItem) (tsOf : Nat → Timestamp) :
    ∀ k i, (loopB codec fileOk settings channels tsOf i k).2 = true →
      filesWritten (loopB codec fileOk settings channels tsOf i k).1 = k ∧
      tickCount (loopB codec fileOk settings channels tsOf i k).1 = k ∧
      takeCount (loopB codec fileOk settings channels tsOf i k).1 = k := by
  intro k
  induction k with
  | zero =>
    intro i _
    simp [loopB, filesWritten, tickCount, takeCount]
  | succ k ih =>
    intro i h
    rcases hr : recvLoop [] (channels i) with _ | im
    · rw [loopB, hr] at h
      simp at h
    · have hstep : loopB codec fileOk settings channels tsOf i (k + 1) =
          (if (persistFrameB codec fileOk settings (tsOf i) im).2 then
            (Ev.tick :: Ev.takeFrame ::
              ((persistFrameB codec fileOk settings (tsOf i) im).1 ++
                (loopB codec fileOk settings channels tsOf (i + 1) k).1),
              (loopB codec fileOk settings channels tsOf (i + 1) k).2)
          else
            (Ev.tick :: Ev.takeFrame ::
              (persistFrameB codec fileOk settings (tsOf i) im).1, false)) := by
        rw [loopB, hr]
      rw [hstep] at h ⊢
      by_cases hp : (persistFrameB codec fileOk settings (tsOf i) im).2 = true
      · rw [if_pos hp] at h ⊢
        simp only at h
        obtain ⟨f1, t1, a1⟩ := persistB_counts codec fileOk settings (tsOf i) im hp
        obtain ⟨f2, t2, a2⟩ := ih (i + 1) h
        refine ⟨?_, ?_, ?_⟩
        · rw [filesWritten_tick_take, filesWritten_append, f1, f2]
          omega
        · rw [tickCount_tick_take, tickCount_append, t1, t2]
          omega
        · rw [takeCount_tick_take, takeCount_append, a1, a2]
          omega
      · rw [if_neg hp] at h
        simp only at h
        exact absurd h (by simp)

/-- Bring-up camera calls leave no files, directories, ticks or
loop acquisitions in the trace. -/
theorem camCall_counts (l : List CamCall) :
    filesWritten (l.map Ev.camCall) = 0 ∧ dirCount (l.map Ev.camCall) = 0 ∧
    tickCount (l.map Ev.camCall) = 0 ∧ takeCount (l.map Ev.camCall) = 0 := by
  induction l with
  | nil => simp [filesWritten, dirCount, tickCount, takeCount]
  | cons c rest ih =>
    refine ⟨?_, ?_, ?_, ?_⟩ <;>
      simp [filesWritten, dirCount, tickCount, takeCount, isFileWrite, isCreateDir,
        isTick, isTakeFrame, List.filter, ih.1, ih.2.1, ih.2.2.1, ih.2.2.2]

/-! ## Priming acquisition (claim C6, corrected) -/

/-- Counterexample to claim C6 as stated: variant B issues no priming
acquisition at all.  A variant-B run with `nframe = 0` performs no
acquisition whatsoever, and in a run with `nframe = 1` the first event
after bring-up is already the first periodic tick — its acquisition is
persisted, not discarded. -/
theorem priming_absent_bin_counterexample :
    batchCaptureB codecOkAll allFilesOk (mainSettings 85) 0 sampleRecvChannels sampleTsOf
      = ([], true) ∧
    takeCount (batchCaptureB codecOkAll allFilesOk (mainSettings 85) 0
      sampleRecvChannels sampleTsOf).1 = 0 ∧
    (batchCaptureB codecOkAll allFilesOk (mainSettings 85) 1
      sampleRecvChannels sampleTsOf).1.head? = some Ev.tick := by
  refine ⟨?_, ?_, ?_⟩ <;> decide

/-- Claim C6 as amended: only variant A issues the priming acquisition: its
`batch_capture` starts with exactly one acquisition before any tick, whose
result is discarded — a successful run shows `n + 1` acquisitions but only
`n` ticks and `n` persisted files. -/
theorem priming_only_main_variant (codec : Codec) (fileOk : String → Bool)
    (settings : CameraSettings) (n : Nat) (channels : Nat → List Chunk)
    (tsOf : Nat → Timestamp) :
    (batchCaptureA codec fileOk settings n channels tsOf).1.head? = some Ev.takeFrame ∧
    ((batchCaptureA codec fileOk settings n channels tsOf).2 = true →
      takeCount (batchCaptureA codec fileOk settings n channels tsOf).1 = n + 1 ∧
      tickCount (batchCaptureA codec fileOk settings n channels tsOf).1 = n ∧
      filesWritten (batchCaptureA codec fileOk settings n channels tsOf).1 = n) := by
  constructor
  · rfl
  · intro h
    have hb : (batchCaptureA codec fileOk settings n channels tsOf).1 =
        Ev.takeFrame :: (loopA codec fileOk settings channels tsOf 1 n).1 := rfl
    have h2 : (loopA codec fileOk settings channels tsOf 1 n).2 = true := h
    obtain ⟨f1, t1, a1⟩ := loopA_counts codec fileOk settings channels tsOf n 1 h2
    rw [hb]
    refine ⟨?_, ?_, ?_⟩ <;>
      simp [filesWritten, tickCount, takeCount, isFileWrite, isTick, isTakeFrame,
        List.filter] <;>
      simp [filesWritten, tickCount, takeCount] at f1 t1 a1 <;>
      omega

/-- Witness for C6 (amended): a concrete successful two-frame variant-A run
has three acquisitions, two ticks and two files, and opens with the
discarded priming acquisition. -/
theorem priming_only_main_variant_witness :
    (batchCaptureA codecOkAll allFilesOk (mainSettings 85) 2
      sampleChannels sampleTsOf).1.head? = some Ev.takeFrame ∧
    takeCount (batchCaptureA codecOkAll allFilesOk (mainSettings 85) 2
      sampleChannels sampleTsOf).1 = 3 := by
  have h := priming_only_main_variant codecOkAll allFilesOk (mainSettings 85) 2
    sampleChannels sampleTsOf
  exact ⟨h.1, (h.2 (by decide)).1⟩

/-! ## Error-free runs persist exactly `n` frames (claim C7) -/

/-- Claim C7: for every target count `n` (and any tick period — the embedded
loops are period-independent), a run of either variant's `batch_capture`
in which no error occurs persists exactly `n` frames, one per tick, on top
of variant A's discarded priming acquisition, and terminates successfully. -/
theorem loop_persists_n_frames (codec : Codec) (fileOk : String → Bool)
    (settings : CameraSettings) (n : Nat) (chunkChannels : Nat → List Chunk)
    (recvChannels : Nat → List RecvItem) (tsOf : Nat → Timestamp) :
    ((batchCaptureA codec fileOk settings n chunkChannels tsOf).2 = true →
      filesWritten (batchCaptureA codec fileOk settings n chunkChannels tsOf).1 = n ∧
      tickCount (batchCaptureA codec fileOk settings n chunkChannels tsOf).1 = n) ∧
    ((batchCaptureB codec fileOk settings n recvChannels tsOf).2 = true →
      filesWritten (batchCaptureB codec fileOk settings n recvChannels tsOf).1 = n ∧
      tickCount (batchCaptureB codec fileOk settings n recvChannels tsOf).1 = n) := by
  constructor
  · intro h
    have h2 : (loopA codec fileOk settings chunkChannels tsOf 1 n).2 = true := h
    obtain ⟨f1, t1, _⟩ := loopA_counts codec fileOk settings chunkChannels tsOf n 1 h2
    have hb : (batchCaptureA codec fileOk settings n chunkChannels tsOf).1 =
        Ev.takeFrame :: (loopA codec fileOk settings chunkChannels tsOf 1 n).1 := rfl
    rw [hb]
    constructor
    · simpa [filesWritten, isFileWrite, List.filter] using f1
    · simpa [tickCount, isTick, List.filter] using t1
  · intro h
    obtain ⟨f1, t1, _⟩ := loopB_counts codec fileOk settings recvChannels tsOf n 1 h
    exact ⟨f1, t1⟩

/-- Witness for C7: concrete error-free two-frame runs of both variants
write exactly two files over two ticks. -/
theorem loop_persists_n_frames_witness :
    filesWritten (batchCaptureA codecOkAll allFilesOk (mainSettings 85) 2
      sampleChannels sampleTsOf).1 = 2 ∧
    filesWritten (batchCaptureB codecOkAll allFilesOk (mainSettings 85) 2
      sampleRecvChannels sampleTsOf).1 = 2 := by
  have h := loop_persists_n_frames codecOkAll allFilesOk (mainSettings 85) 2
    sampleChannels sampleRecvChannels sampleTsOf
  exact ⟨(h.1 (by decide)).1, (h.2 (by decide)).1⟩

/-! ## Bring-up failure aborts before any capture (claim C8) -/

/-- Claim C8: if any bring-up configuration call fails, both variants exit
with a non-zero status (`1`), with zero output files written, no session
directory created, and no timed tick or loop acquisition attempted. -/
theorem bringup_failure_aborts (env : RunEnv)
    (h : (initCamera env.ok).2 = false) :
    (mainRunA env).2 = 1 ∧ (mainRunB env).2 = 1 ∧
    filesWritten (mainRunA env).1 = 0 ∧ dirCount (mainRunA env).1 = 0 ∧
    tickCount (mainRunA env).1 = 0 ∧ takeCount (mainRunA env).1 = 0 ∧
    filesWritten (mainRunB env).1 = 0 ∧ dirCount (mainRunB env).1 = 0 ∧
    tickCount (mainRunB env).1 = 0 ∧ takeCount (mainRunB env).1 = 0 := by
  have hA : mainRunA env = ((initCamera env.ok).1.map Ev.camCall, 1) := by
    unfold mainRunA
    rw [if_neg (by simp [h])]
  have hB : mainRunB env = ((initCamera env.ok).1.map Ev.camCall, 1) := by
    unfold mainRunB
    rw [if_neg (by simp [h])]
  obtain ⟨c1, c2, c3, c4⟩ := camCall_counts (initCamera env.ok).1
  rw [hA, hB]
  exact ⟨rfl, rfl, c1, c2, c3, c4, c1, c2, c3, c4⟩

/-- Witness for C8: the concrete run whose `set_camera_format` call fails
exits non-zero with zero files and no session directory. -/
theorem bringup_failure_aborts_witness :
    (mainRunA sampleEnvFailFormat).2 = 1 ∧ (mainRunB sampleEnvFailFormat).2 = 1 ∧
    filesWritten (mainRunA sampleEnvFailFormat).1 = 0 ∧
    dirCount (mainRunA sampleEnvFailFormat).1 = 0 := by
  obtain ⟨h1, h2, h3, h4, _⟩ := bringup_failure_aborts sampleEnvFailFormat (by decide)
  exact ⟨h1, h2, h3, h4⟩

/-! ## The declared encoding is always PNG (claim C10) -/

/-- Claim C10: every settings value `main` can build carries the PNG
encoding constant, so the declared decode format is always `Png` and the
decode-failure fallback extension is always `.png`; the `Jpeg`/`.jpg`
branches of those two conditionals are unreachable in every run. -/
theorem encoding_always_png (q : Nat) :
    (mainSettings q).encoding = MMAL_ENCODING_PNG ∧
    declaredFormat (mainSettings q) = ImageFormat.png ∧
    fallbackExt (mainSettings q) = ".png" ∧
    declaredFormat (mainSettings q) ≠ ImageFormat.jpeg ∧
    fallbackExt (mainSettings q) ≠ ".jpg" := by
  refine ⟨rfl, ?_, ?_, ?_, ?_⟩ <;> simp [declaredFormat, fallbackExt, mainSettings]

/-- Witness for C10 at a concrete quality value. -/
theorem encoding_always_png_witness :
    declaredFormat (mainSettings 50) = ImageFormat.png ∧
    fallbackExt (mainSettings 50) = ".png" :=
  ⟨(encoding_always_png 50).2.1, (encoding_always_png 50).2.2.1⟩

/-! ## Filename monotonicity (claim C9) -/

theorem padDigits_length (w : Nat) : ∀ n, (padDigits w n).length = w := by
  induction w with
  | zero => intro n; rfl
  | succ w ih => intro n; simp [padDigits, ih]

theorem decField_length (w n : Nat) : (decField w n).length = w := by
  simp [decField, padDigits_length]

theorem padDigits_lt (w : Nat) : ∀ a b, a < b → b < 10 ^ w →
    List.Lex (· < ·) (padDigits w a) (padDigits w b) := by
  induction w with
  | zero =>
    intro a b hab hb
    simp at hb
    omega
  | succ w ih =>
    intro a b hab hb
    have hq : a / 10 ^ w ≤ b / 10 ^ w := Nat.div_le_div_right (le_of_lt hab)
    rcases Nat.lt_or_ge (a / 10 ^ w) (b / 10 ^ w) with h | h
    · exact List.Lex.rel h
    · have heq : a / 10 ^ w = b / 10 ^ w := le_antisymm hq h
      rw [padDigits, padDigits, heq]
      apply List.Lex.cons
      apply ih
      · have ha := Nat.div_add_mod a (10 ^ w)
        have hbm := Nat.div_add_mod b (10 ^ w)
        rw [heq] at ha
        omega
      · exact Nat.mod_lt b (pow_pos (by norm_num) w)

theorem padDigits_bounded (w : Nat) : ∀ n, n < 10 ^ w → ∀ d ∈ padDigits w n, d < 10 := by
  induction w with
  | zero => intro n _ d hd; simp [padDigits] at hd
  | succ w ih =>
    intro n hn d hd
    rw [padDigits] at hd
    rcases List.mem_cons.mp hd with h | h
    · subst h
      have hlt : n < 10 * 10 ^ w := by
        rw [pow_succ] at hn
        omega
      exact Nat.div_lt_of_lt_mul (by omega)
    · exact ih (n % 10 ^ w) (Nat.mod_lt n (pow_pos (by norm_num) w)) d h

theorem digitChar_lt {a b : Nat} (hab : a < b) (hb : b < 10) :
    Nat.digitChar a < Nat.digitChar b := by
  have h : ∀ y, y < 10 → ∀ x, x < y → Nat.digitChar x < Nat.digitChar y := by decide
  exact h b hb a hab

theorem lex_map_digitChar {l1 l2 : List Nat} (hlex : List.Lex (· < ·) l1 l2) :
    (∀ d ∈ l2, d < 10) →
    List.Lex (· < ·) (l1.map Nat.digitChar) (l2.map Nat.digitChar) := by
  induction hlex with
  | nil => exact fun _ => List.Lex.nil
  | @rel a l1 b l2 h =>
    intro h2
    exact List.Lex.rel (digitChar_lt h (h2 b (by simp)))
  | @cons a l1 l2 h ih =>
    intro h2
    exact List.Lex.cons (ih fun d hd => h2 d (by simp [hd]))

theorem decField_lt {w a b : Nat} (hab : a < b) (hb : b < 10 ^ w) :
    List.Lex (· < ·) (decField w a) (decField w b) :=
  lex_map_digitChar (padDigits_lt w a b hab hb) (padDigits_bounded w b hb)

theorem lex_append_right {α : Type} {r : α → α → Prop} {as bs : List α}
    (h : List.Lex r as bs) :
    as.length = bs.length → ∀ cs ds : List α, List.Lex r (as ++ cs) (bs ++ ds) := by
  induction h with
  | nil =>
    intro hlen
    simp at hlen
  | @rel a l1 b l2 h =>
    intro _ cs ds
    exact List.Lex.rel h
  | @cons a l1 l2 h ih =>
    intro hlen cs ds
    exact List.Lex.cons (ih (by simpa using hlen) cs ds)

theorem lex_append_left {α : Type} {r : α → α → Prop} (as : List α) {cs ds : List α}
    (h : List.Lex r cs ds) : List.Lex r (as ++ cs) (as ++ ds) := by
  induction as with
  | nil => exact h
  | cons a rest ih => exact List.Lex.cons ih

/-- Strictly earlier capture times yield lexicographically smaller
`%Y%m%d_%H%M%S_%3f` character sequences, whatever trails them. -/
theorem tsChars_append_lt (t1 t2 : Timestamp) (r1 r2 : List Char)
    (h1 : t1.valid) (h2 : t2.valid) (hb : t1.before t2) :
    List.Lex (· < ·) (tsChars t1 ++ r1) (tsChars t2 ++ r2) := by
  obtain ⟨-, -, hmo1b, -, hd1b, hh1, hmi1, hs1, hms1⟩ := h1
  obtain ⟨hy2, -, hmo2b, -, hd2b, hh2, hmi2, hs2, hms2⟩ := h2
  have p2 : (10:Nat) ^ 2 = 100 := by norm_num
  have p3 : (10:Nat) ^ 3 = 1000 := by norm_num
  have p4 : (10:Nat) ^ 4 = 10000 := by norm_num
  simp only [tsChars, List.append_assoc, List.singleton_append]
  rcases hb with hy | ⟨hy, hb⟩
  · exact lex_append_right (decField_lt hy (by omega)) (by simp [decField_length]) _ _
  rw [hy]
  apply lex_append_left
  rcases hb with hmo | ⟨hmo, hb⟩
  · exact lex_append_right (decField_lt hmo (by omega)) (by simp [decField_length]) _ _
  rw [hmo]
  apply lex_append_left
  rcases hb with hd | ⟨hd, hb⟩
  · exact lex_append_right (decField_lt hd (by omega)) (by simp [decField_length]) _ _
  rw [hd]
  apply lex_append_left
  apply List.Lex.cons
  rcases hb with hh | ⟨hh, hb⟩
  · exact lex_append_right (decField_lt hh (by omega)) (by simp [decField_length]) _ _
  rw [hh]
  apply lex_append_left
  rcases hb with hmi | ⟨hmi, hb⟩
  · exact lex_append_right (decField_lt hmi (by omega)) (by simp [decField_length]) _ _
  rw [hmi]
  apply lex_append_left
  rcases hb with hs | ⟨hs, hms⟩
  · exact lex_append_right (decField_lt hs (by omega)) (by simp [decField_length]) _ _
  rw [hs]
  apply lex_append_left
  apply List.Lex.cons
  exact lex_append_right (decField_lt hms (by omega)) (by simp [decField_length]) _ _

/-- Claim C9: for any two frames whose capture timestamps differ at
millisecond granularity, the later frame's filename
(`%Y%m%d_%H%M%S_%3f` plus any extension) is strictly greater as a string,
so the timestamp-to-filename mapping is strictly monotone in capture
time; only sub-millisecond captures can collide. -/
theorem filename_monotone (t1 t2 : Timestamp) (e1 e2 : String)
    (h1 : t1.valid) (h2 : t2.valid) (hb : t1.before t2) :
    tsString t1 ++ e1 < tsString t2 ++ e2 := by
  apply String.lt_iff_toList_lt.mpr
  show List.Lex (· < ·) ((tsString t1 ++ e1).data) ((tsString t2 ++ e2).data)
  rw [String.data_append, String.data_append]
  show List.Lex (· < ·) (tsChars t1 ++ e1.data) (tsChars t2 ++ e2.data)
  exact tsChars_append_lt t1 t2 e1.data e2.data h1 h2 hb

/-- Witness for C9: two concrete capture times one millisecond apart give
strictly increasing filenames, even with extensions that compare the
other way. -/
theorem filename_monotone_witness :
    tsString sampleTs ++ ".png" < tsString sampleTsLater ++ ".jpg" :=
  filename_monotone sampleTs sampleTsLater ".png" ".jpg"
    (by norm_num [Timestamp.valid, sampleTs])
    (by norm_num [Timestamp.valid, sampleTsLater])
    (by norm_num [Timestamp.before, sampleTs, sampleTsLater])

end Capture
